import Mathlib

/-!
Verification of the session-timeline companion UI (Technologia repository):
shallow embedding of the transcription state machine, the quest/timeline
aggregator, the inbound WebSocket message router, and the character
damage/heal/rest/concentration mechanics, together with theorems settling
the specified properties.
-/

namespace Technologia

/-! ## Transcription state machine

Embedded from `frontend/dungeon-scribe/js/main.js` (and the identical copy in
the unnamed main log client script): the `btnStart` / `btnPause` / `btnStop`
click handlers over the global `txState` variable, together with the system
log event each handler emits. -/

inductive TxState
  | idle
  | recording
  | paused
deriving DecidableEq, Repr

inductive TxAction
  | start
  | pauseResume
  | stop
deriving DecidableEq, Repr

/-- The system log events the transcription control handlers can emit
("Transcription started." / "Transcription paused." / "Transcription
resumed." / "Transcription stopped."). -/
inductive TxEvent
  | started
  | pausedEv
  | resumed
  | stopped
deriving DecidableEq, Repr

/-- One click of a transcription control button: the next state and the
optional system log event emitted.  `start` fires from `idle` or `paused`
and always logs "Transcription started."; `pauseResume` toggles between
`recording` and `paused`; `stop` fires from any non-idle state.  All other
clicks are silently ignored by the guards in the handlers. -/
def transition : TxState → TxAction → TxState × Option TxEvent
  | .idle, .start => (.recording, some .started)
  | .paused, .start => (.recording, some .started)
  | .recording, .start => (.recording, none)
  | .recording, .pauseResume => (.paused, some .pausedEv)
  | .paused, .pauseResume => (.recording, some .resumed)
  | .idle, .pauseResume => (.idle, none)
  | .idle, .stop => (.idle, none)
  | .recording, .stop => (.idle, some .stopped)
  | .paused, .stop => (.idle, some .stopped)

/-! ## Quests and the global timeline aggregator

Embedded from `frontend/src/js/inventory.js`: the quest record created by
`btnNew`, the status mutations of `btnComplete` / `btnAbandon`, the event
append of the event form, and `renderGlobalTimeline`.  Timestamps are epoch
milliseconds (the code compares `new Date(b.ts) - new Date(a.ts)`). -/

structure QEvent where
  id : String
  ts : Int
  type : String
  text : String
  location : String
deriving DecidableEq, Repr

structure Quest where
  id : String
  title : String
  desc : String
  status : String
  assigned : String
  created : Int
  events : List QEvent
deriving DecidableEq, Repr

/-- `btnNew` handler: a fresh quest starts `active` with no events. -/
def newQuest (id title desc : String) (created : Int) : Quest :=
  { id := id, title := title, desc := desc, status := "active",
    assigned := "", created := created, events := [] }

/-- `btnComplete` handler: sets the status unconditionally. -/
def completeQuest (q : Quest) : Quest := { q with status := "completed" }

/-- `btnAbandon` handler: sets the status unconditionally. -/
def abandonQuest (q : Quest) : Quest := { q with status := "failed" }

/-- Event form submit handler: `q.events.push(ev)`. -/
def addQuestEvent (q : Quest) (ev : QEvent) : Quest :=
  { q with events := q.events ++ [ev] }

/-- Assign dropdown change handler: `q.assigned = value`. -/
def assignQuest (q : Quest) (who : String) : Quest :=
  { q with assigned := who }

/-- An entry of the aggregated global timeline.  Quest events are spread
verbatim (`{...ev, quest: q.title}`, so `location` is carried as `some _`);
the synthetic creation entry has no location field (`none`). -/
structure TLEntry where
  id : String
  ts : Int
  type : String
  text : String
  location : Option String
  quest : String
deriving DecidableEq, Repr

/-- `allEvents.push({ ...ev, quest: q.title })` in `renderGlobalTimeline`. -/
def eventEntry (q : Quest) (ev : QEvent) : TLEntry :=
  { id := ev.id, ts := ev.ts, type := ev.type, text := ev.text,
    location := some ev.location, quest := q.title }

/-- `allEvents.push({ id: 'c_'+q.id, ts: q.created, type: 'quest-created',
text: 'Quest created', quest: q.title })` in `renderGlobalTimeline`. -/
def createdEntry (q : Quest) : TLEntry :=
  { id := "c_" ++ q.id, ts := q.created, type := "quest-created",
    text := "Quest created", location := none, quest := q.title }

/-- The entries contributed by one quest, in push order: its events first,
then the synthetic creation entry. -/
def questEntries (q : Quest) : List TLEntry :=
  q.events.map (eventEntry q) ++ [createdEntry q]

/-- The combined pre-sort sequence: `quests.forEach` push order. -/
def allEventsOf : List Quest → List TLEntry
  | [] => []
  | q :: qs => questEntries q ++ allEventsOf qs

/-- The comparator `(a,b) => new Date(b.ts) - new Date(a.ts)`: descending
timestamp order. -/
def tsDesc (a b : TLEntry) : Prop := b.ts ≤ a.ts

instance : DecidableRel tsDesc := fun a b => inferInstanceAs (Decidable (b.ts ≤ a.ts))

instance : IsTotal TLEntry tsDesc := ⟨fun a b => le_total b.ts a.ts⟩

instance : IsTrans TLEntry tsDesc := ⟨fun _ _ _ h1 h2 => le_trans h2 h1⟩

/-- `renderGlobalTimeline`: collect all entries, then `allEvents.sort(...)`.
`Array.prototype.sort` is stable, so its denotation is the (unique) stable
descending sort, here realised by insertion sort. -/
def renderGlobalTimeline (quests : List Quest) : List TLEntry :=
  List.insertionSort tsDesc (allEventsOf quests)

/-! ## Inbound WebSocket message router

Embedded from the unnamed main log client script (`ws.onmessage` together
with `addLogMessage`, `addTimelineEvent`, `addQuest` and `formatMessage`),
and from `frontend/src/js/main_live.js` (`uiWs.onmessage`). -/

/-- A parsed inbound message.  `heading` and `location` are optional in the
payloads; `quest_name` and `content` are modelled as always present (the
claims only exercise messages carrying them). -/
structure Msg where
  heading : Option String
  quest_name : String
  content : String
  location : Option String
deriving DecidableEq, Repr

/-- A log panel entry, by the DOM shape the router builds for it. -/
inductive LogEntry
  | questUpdate (questName content : String)
  | worldUpdate (content : String)
  | narratorMsg (location : Option String) (content : String)
  | playerMsg (name meta content : String)
deriving DecidableEq, Repr

/-- A timeline rail item: `addTimelineEvent(time, type, title, meta, ...)`. -/
structure TLItem where
  time : Int
  type : String
  title : String
  meta : String
deriving DecidableEq, Repr

/-- A quest list card: `addQuest(title, update)`. -/
structure QuestItem where
  title : String
  update : String
deriving DecidableEq, Repr

/-- The client state mutated by the router: the log panel, the timeline
rail and the quest list, each newest-first (the handlers prepend). -/
structure ClientState where
  log : List LogEntry
  timeline : List TLItem
  questList : List QuestItem
deriving DecidableEq, Repr

/-- The runtime errors the `ws.onmessage` handler can raise (it has no
try/catch): a `JSON.parse` failure, or a `TypeError` from calling
`.startsWith` on an absent `heading` / `.trim` on an absent name segment. -/
inductive RouteErr
  | parseError
  | typeErrorHeading
  | typeErrorName
deriving DecidableEq, Repr

/-- `String.prototype.startsWith`. -/
def jsStartsWith (s pre : String) : Bool :=
  List.isPrefixOf pre.data s.data

/-- `String.prototype.split(sep)` for a one-character separator, on char
lists.  An input with no separator yields a singleton list. -/
def splitCharList (sep : Char) : List Char → List (List Char)
  | [] => [[]]
  | c :: cs =>
    match splitCharList sep cs with
    | [] => [[c]]
    | r :: rs => if c = sep then [] :: r :: rs else (c :: r) :: rs

/-- `String.prototype.split(":")`. -/
def jsSplitColon (s : String) : List String :=
  (splitCharList ':' s.data).map String.mk

/-- The whitespace class `String.prototype.trim` strips. -/
def isJsWs (c : Char) : Bool :=
  c = ' ' ∨ c = '\t' ∨ c = '\n' ∨ c = '\r'

/-- `String.prototype.trim`. -/
def jsTrim (s : String) : String :=
  String.mk (((s.data.dropWhile isJsWs).reverse.dropWhile isJsWs).reverse)

/-- `String.prototype.toLowerCase` (ASCII). -/
def jsToLower (s : String) : String :=
  String.mk (s.data.map Char.toLower)

/-- `charAt(0).toUpperCase() + slice(1)`. -/
def jsCapitalize (s : String) : String :=
  match s.data with
  | [] => ""
  | c :: cs => String.mk (c.toUpper :: cs)

/-- `charAt(0).toLowerCase() + slice(1)`. -/
def jsDecapitalize (s : String) : String :=
  match s.data with
  | [] => ""
  | c :: cs => String.mk (c.toLower :: cs)

/-- `formatMessage`: capitalize the first letter of the name, lowercase the
first letter of the content, join with a space. -/
def formatMessage (charName text : String) : String :=
  jsCapitalize charName ++ " " ++ jsDecapitalize text

/-- `addQuest`: prepend the new card, then drop cards from the end while
more than 2 remain. -/
def addQuest (title update : String) (ql : List QuestItem) : List QuestItem :=
  List.take 2 (⟨title, update⟩ :: ql)

/-- The dispatch of `ws.onmessage` on an already-parsed message, at a given
wall-clock timestamp `t`.  Mirrors the branch structure of the handler:
the "Quest Update" branch returns early; the "World State Update" branch
and the `heading.startsWith("Character ...")` chain build a `wrap` element
appended at the end; anything else leaves the state unchanged.  Reading
`.startsWith` off an absent heading, or `.trim` off an absent `split(":")[1]`,
raises a `TypeError`. -/
def route (t : Int) (m : Msg) (s : ClientState) : Except RouteErr ClientState :=
  if m.heading = some "Quest Update" then
    Except.ok
      { log := LogEntry.questUpdate m.quest_name m.content :: s.log,
        timeline := ⟨t, "Quest", m.quest_name, "Quest Updated"⟩ :: s.timeline,
        questList := addQuest m.quest_name m.content s.questList }
  else if m.heading = some "World State Update" then
    Except.ok
      { log := LogEntry.worldUpdate m.content :: s.log,
        timeline := ⟨t, "Event", m.location.getD "", "Location Changed"⟩ :: s.timeline,
        questList := s.questList }
  else
    match m.heading with
    | none => Except.error RouteErr.typeErrorHeading
    | some h =>
      if jsStartsWith h "Character Action" || jsStartsWith h "Character Outcome" then
        match (jsSplitColon h).get? 1 with
        | none => Except.error RouteErr.typeErrorName
        | some seg =>
          let charName := jsTrim seg
          if jsToLower charName = "narrator" then
            Except.ok { s with log := LogEntry.narratorMsg m.location m.content :: s.log }
          else
            let meta := if jsStartsWith h "Character Action" then "Action" else "Outcome"
            let entry := LogEntry.playerMsg charName meta (formatMessage charName m.content)
            Except.ok { s with log := entry :: s.log }
      else
        Except.ok s

/-- The whole `ws.onmessage` handler on a raw payload: the result of
`JSON.parse` (`none` = parse failure) is dispatched with no try/catch, so a
parse failure propagates as an uncaught exception. -/
def onMessageRaw (t : Int) (parsed : Option Msg) (s : ClientState) :
    Except RouteErr ClientState :=
  match parsed with
  | none => Except.error RouteErr.parseError
  | some m => route t m s

/-- The state touched by the `main_live.js` UI socket handler: the pushed
summary texts and the Recent Quests panel cards, newest-first. -/
structure LiveState where
  summaries : List String
  questList : List QuestItem
deriving DecidableEq, Repr

/-- A parsed message as `main_live.js` reads it (all fields optional). -/
structure LiveMsg where
  type : Option String
  text : Option String
  heading : Option String
  quest_name : Option String
  content : Option String
deriving DecidableEq, Repr

/-- `uiWs.onmessage` in `main_live.js`: the whole body sits in a
`try { ... } catch {}`, so a parse failure (`none`) is swallowed and the
state is returned unchanged.  A `type:"summary"` message pushes a summary;
independently a `heading:"Quest Update"` message prepends a quest card
(with no cap on the list length). -/
def liveOnMessage (parsed : Option LiveMsg) (s : LiveState) : LiveState :=
  match parsed with
  | none => s
  | some m =>
    let s1 := if m.type = some "summary"
      then { s with summaries := m.text.getD "" :: s.summaries }
      else s
    if m.heading = some "Quest Update"
      then { s1 with questList := ⟨m.quest_name.getD "Quest", m.content.getD ""⟩ :: s1.questList }
      else s1

/-! ## Character mechanics

Embedded from `frontend/src/js/characters.js`: `calcProf`, `abilityMod`,
and the `btnDamage` / `btnHeal` / `btnShortRest` / `btnLongRest` /
`btnConCheck` click handlers.  Die rolls are external inputs, passed in as
parameters.  All numbers are integers (the handlers read them through
`Number(prompt(...))` and do integer arithmetic on them). -/

structure Character where
  level : Int
  hp : Int
  maxHp : Int
  con : Int
  hitDie : Int
  hitDice : Int
  conditions : List String
  concentratingOn : Option String
deriving DecidableEq, Repr

/-- Proficiency progression: 1-4:+2, 5-8:+3, 9-12:+4, 13-16:+5, 17-20:+6. -/
def calcProf (level : Int) : Int :=
  if level ≥ 17 then 6
  else if level ≥ 13 then 5
  else if level ≥ 9 then 4
  else if level ≥ 5 then 3
  else 2

/-- `abilityMod`: `Math.floor((score - 10) / 2)`. -/
def abilityMod (score : Int) : Int := Int.fdiv (score - 10) 2

/-- The concentration difficulty `Math.max(10, Math.floor(dmg / 2))`. -/
def concDC (dmg : Int) : Int := max 10 (Int.fdiv dmg 2)

/-- `btnDamage` handler on the selected character, with the d20 outcome
`roll20` supplied externally: clamp hp at 0, and if concentrating make a
check with roll `d20 + conMod + prof` against `concDC`, clearing
`concentratingOn` exactly on failure (`roll < dc`). -/
def applyDamage (c : Character) (dmg roll20 : Int) : Character :=
  let hp' := max 0 (c.hp - dmg)
  match c.concentratingOn with
  | some _ =>
    let dc := concDC dmg
    let roll := roll20 + abilityMod c.con + calcProf c.level
    if roll ≥ dc then { c with hp := hp' }
    else { c with hp := hp', concentratingOn := none }
  | none => { c with hp := hp' }

/-- `btnHeal` handler: `hp = Math.min(maxHp, hp + amt)`. -/
def heal (c : Character) (amt : Int) : Character :=
  { c with hp := min c.maxHp (c.hp + amt) }

/-- `btnConCheck` handler: a manual concentration check with roll
`d20 + conMod` (no proficiency at this call site); no-op when the damage
input is not positive or the character is not concentrating. -/
def concCheck (c : Character) (dmg roll20 : Int) : Character :=
  if dmg ≤ 0 then c
  else
    match c.concentratingOn with
    | none => c
    | some _ =>
      if roll20 + abilityMod c.con ≥ concDC dmg then c
      else { c with concentratingOn := none }

/-- The short-rest healing loop: for each of `n` spent dice, add
`Math.max(0, roll + conMod)` to the running total. -/
def healTotal (c : Character) (rolls : Nat → Int) (n : Nat) : Int :=
  (List.range n).foldl (fun acc i => acc + max 0 (rolls i + abilityMod c.con)) 0

/-- `btnShortRest` handler with the prompt input `spent` and the die
outcomes `rolls` supplied externally.  Note `maxPossible = c.hitDice ||
Math.max(1, Math.floor(c.level/2))`: when `hitDice` is `0` (falsy) the
fallback applies, so dice can still be spent.  Each die heals
`max(0, roll + conMod)`; hp is capped at `maxHp`; `hitDice` becomes
`(c.hitDice || maxPossible) - toSpend`. -/
def shortRest (c : Character) (spent : Int) (rolls : Nat → Int) : Character :=
  let maxPossible := if c.hitDice = 0 then max 1 (Int.fdiv c.level 2) else c.hitDice
  if spent ≤ 0 then c
  else
    let toSpend := min maxPossible spent
    let total := healTotal c rolls toSpend.toNat
    let hp' := min c.maxHp (c.hp + total)
    let hd' := (if c.hitDice = 0 then maxPossible else c.hitDice) - toSpend
    { c with hp := hp', hitDice := hd' }

/-- `btnLongRest` handler: hp to max, recover `Math.ceil((level||1)/2)` hit
dice capped at `level`, clear conditions and concentration.  For integer
`l`, `Math.ceil(l/2)` is `(l+1).fdiv 2`. -/
def longRest (c : Character) : Character :=
  let lv := if c.level = 0 then 1 else c.level
  let recovered := Int.fdiv (lv + 1) 2
  let hd' := min c.level (c.hitDice + recovered)
  { c with hp := c.maxHp, hitDice := hd', conditions := [], concentratingOn := none }

/-! ## Theorems -/

/-- C2 counterexample: the claim says `start` from `paused` emits a
"resumed" log event, but the `btnStart` handler does not distinguish
`paused` from `idle` and logs "Transcription started." from both. -/
theorem C2_counterexample :
    (transition TxState.paused TxAction.start).2 ≠ some TxEvent.resumed ∧
    transition TxState.paused TxAction.start = (TxState.recording, some TxEvent.started) := by
  decide

/-- C2 (amended): the transcription state machine follows the table with
`start` mapping idle→recording and paused→recording, both emitting the
"Transcription started" event; `pauseResume` maps recording→paused
("paused" event) and paused→recording ("resumed" event); `stop` maps
recording and paused to idle ("stopped" event); the invalid transitions
(start from recording, pauseResume from idle, stop from idle) leave the
state unchanged and emit no log event. -/
theorem C2_transition_table :
    transition TxState.idle TxAction.start = (TxState.recording, some TxEvent.started) ∧
    transition TxState.paused TxAction.start = (TxState.recording, some TxEvent.started) ∧
    transition TxState.recording TxAction.start = (TxState.recording, none) ∧
    transition TxState.recording TxAction.pauseResume = (TxState.paused, some TxEvent.pausedEv) ∧
    transition TxState.paused TxAction.pauseResume = (TxState.recording, some TxEvent.resumed) ∧
    transition TxState.idle TxAction.pauseResume = (TxState.idle, none) ∧
    transition TxState.recording TxAction.stop = (TxState.idle, some TxEvent.stopped) ∧
    transition TxState.paused TxAction.stop = (TxState.idle, some TxEvent.stopped) ∧
    transition TxState.idle TxAction.stop = (TxState.idle, none) := by
  decide

/-- C4 counterexample: the claim says a malformed payload surfaces no
error, but the main log client's `ws.onmessage` calls `JSON.parse` with no
try/catch, so the parse failure propagates as an uncaught exception. -/
theorem C4_counterexample :
    onMessageRaw 0 none ⟨[], [], []⟩ = Except.error RouteErr.parseError :=
  rfl

/-- C4 (amended): a payload that is not valid JSON produces no log entry,
no timeline entry and no quest entry in either client; in `main_live.js`
the handler body is wrapped in try/catch so the failure is swallowed and
the state is returned unchanged, while in the main log client the
`JSON.parse` exception propagates uncaught (the state is still untouched). -/
theorem C4_malformed_json (t : Int) (s : ClientState) (ls : LiveState) :
    onMessageRaw t none s = Except.error RouteErr.parseError ∧
    liveOnMessage none ls = ls :=
  ⟨rfl, rfl⟩

/-- C6 counterexample: the claim says a completed quest's status never
changes again, but `btnAbandon` sets `status = 'failed'` unconditionally,
so a completed quest can be flipped to failed. -/
theorem C6_counterexample :
    (completeQuest (newQuest "q1" "Find the relic" "" 0)).status = "completed" ∧
    (abandonQuest (completeQuest (newQuest "q1" "Find the relic" "" 0))).status = "failed" := by
  decide

/-- C6 (amended): `btnComplete` always sets the status to completed and
`btnAbandon` always sets it to failed, regardless of the current status —
so completed↔failed flips are possible; no operation ever sets the status
back to active, and the other quest mutations (adding an event, assigning a
character) leave the status unchanged. -/
theorem C6_status_transitions (q : Quest) (ev : QEvent) (who : String) :
    (completeQuest q).status = "completed" ∧
    (abandonQuest q).status = "failed" ∧
    (completeQuest q).status ≠ "active" ∧
    (abandonQuest q).status ≠ "active" ∧
    (addQuestEvent q ev).status = q.status ∧
    (assignQuest q who).status = q.status := by
  refine ⟨rfl, rfl, ?_, ?_, rfl, rfl⟩ <;> simp only [completeQuest, abandonQuest] <;> decide

/-- C7: after a long rest on a character of level at least 1, hp equals
maxHp, hitDice equals `min(level, hitDice + ceil(level/2))`, conditions are
cleared and concentration is cleared. -/
theorem C7_longRest (c : Character) (h : 1 ≤ c.level) :
    (longRest c).hp = c.maxHp ∧
    (longRest c).hitDice = min c.level (c.hitDice + Int.fdiv (c.level + 1) 2) ∧
    (longRest c).conditions = [] ∧
    (longRest c).concentratingOn = none := by
  have hne : c.level ≠ 0 := by omega
  simp [longRest, hne]

/-- C7 witness at the spec's example: level 4 with 1 hit die ends the long
rest with full hp and `min(4, 1 + 2) = 3` hit dice. -/
theorem C7_witness :
    (1 : Int) ≤ 4 ∧
    ((longRest ⟨4, 5, 30, 14, 8, 1, ["poisoned"], some "Bless"⟩).hp = 30 ∧
      (longRest ⟨4, 5, 30, 14, 8, 1, ["poisoned"], some "Bless"⟩).hitDice = min 4 (1 + Int.fdiv (4 + 1) 2) ∧
      (longRest ⟨4, 5, 30, 14, 8, 1, ["poisoned"], some "Bless"⟩).conditions = [] ∧
      (longRest ⟨4, 5, 30, 14, 8, 1, ["poisoned"], some "Bless"⟩).concentratingOn = none) :=
  ⟨by decide, C7_longRest ⟨4, 5, 30, 14, 8, 1, ["poisoned"], some "Bless"⟩ (by decide)⟩

/-- C10: the main log client's dispatch is not total — a message with no
`heading` reaches `heading.startsWith` and raises a TypeError (no entry is
produced), while a string heading matching no branch is silently ignored. -/
theorem C10_router_partiality :
    (∀ (t : Int) (s : ClientState) (qn ct : String) (loc : Option String),
      route t ⟨none, qn, ct, loc⟩ s = Except.error RouteErr.typeErrorHeading) ∧
    (∀ (t : Int) (s : ClientState) (m : Msg) (h : String),
      m.heading = some h → h ≠ "Quest Update" → h ≠ "World State Update" →
      jsStartsWith h "Character Action" = false →
      jsStartsWith h "Character Outcome" = false →
      route t m s = Except.ok s) := by
  constructor
  · intro t s qn ct loc
    simp [route]
  · intro t s m h hh h1 h2 h3 h4
    simp [route, hh, h1, h2, h3, h4]

/-- C10 witness: a heading-less message errors; the heading "Roll Result"
is ignored. -/
theorem C10_witness :
    route 0 ⟨none, "", "", none⟩ ⟨[], [], []⟩ = Except.error RouteErr.typeErrorHeading ∧
    ((⟨some "Roll Result", "", "", none⟩ : Msg).heading = some "Roll Result" ∧
      route 0 ⟨some "Roll Result", "", "", none⟩ ⟨[], [], []⟩ = Except.ok ⟨[], [], []⟩) :=
  ⟨C10_router_partiality.1 0 ⟨[], [], []⟩ "" "" none,
    rfl,
    C10_router_partiality.2 0 ⟨[], [], []⟩ ⟨some "Roll Result", "", "", none⟩ "Roll Result"
      rfl (by decide) (by decide) (by decide) (by decide)⟩

/-! ### Character mechanics helper lemmas -/

theorem applyDamage_hp (c : Character) (d r : Int) :
    (applyDamage c d r).hp = max 0 (c.hp - d) := by
  unfold applyDamage
  cases c.concentratingOn <;> simp <;> split <;> rfl

theorem applyDamage_maxHp (c : Character) (d r : Int) :
    (applyDamage c d r).maxHp = c.maxHp := by
  unfold applyDamage
  cases c.concentratingOn <;> simp <;> split <;> rfl

theorem applyDamage_conc_some (c : Character) (d r : Int) (sp : String)
    (hsp : c.concentratingOn = some sp) :
    ((applyDamage c d r).concentratingOn = none ↔
      r + abilityMod c.con + calcProf c.level < concDC d) := by
  unfold applyDamage
  rw [hsp]
  by_cases hge : r + abilityMod c.con + calcProf c.level ≥ concDC d
  · simp [hge, hsp]
  · simp [hge]
    omega

theorem applyDamage_conc_none (c : Character) (d r : Int)
    (hsp : c.concentratingOn = none) :
    (applyDamage c d r).concentratingOn = none := by
  unfold applyDamage
  rw [hsp]

theorem concCheck_conc_some (c : Character) (d r : Int) (sp : String)
    (hd : 0 < d) (hsp : c.concentratingOn = some sp) :
    ((concCheck c d r).concentratingOn = none ↔
      r + abilityMod c.con < concDC d) := by
  unfold concCheck
  rw [hsp]
  have hnd : ¬ d ≤ 0 := by omega
  by_cases hge : r + abilityMod c.con ≥ concDC d
  · simp [hnd, hge, hsp]
  · simp [hnd, hge]
    omega

theorem le_foldl_add_max (f : Nat → Int) :
    ∀ (l : List Nat) (acc : Int), acc ≤ l.foldl (fun a i => a + max 0 (f i)) acc
  | [], _ => le_refl _
  | i :: l, acc => by
    have h1 : acc ≤ acc + max 0 (f i) := by
      have := le_max_left (0 : Int) (f i)
      omega
    simpa using le_trans h1 (le_foldl_add_max f l (acc + max 0 (f i)))

theorem healTotal_nonneg (c : Character) (rolls : Nat → Int) (n : Nat) :
    0 ≤ healTotal c rolls n :=
  le_foldl_add_max (fun i => rolls i + abilityMod c.con) (List.range n) 0

theorem shortRest_of_nonpos (c : Character) (spent : Int) (rolls : Nat → Int)
    (h : spent ≤ 0) : shortRest c spent rolls = c := by
  unfold shortRest
  simp [h]

theorem shortRest_of_pos_hitDice_ne (c : Character) (spent : Int) (rolls : Nat → Int)
    (h : 0 < spent) (hd : c.hitDice ≠ 0) :
    shortRest c spent rolls =
      { c with hp := min c.maxHp (c.hp + healTotal c rolls (min c.hitDice spent).toNat),
               hitDice := c.hitDice - min c.hitDice spent } := by
  unfold shortRest
  have hns : ¬ spent ≤ 0 := by omega
  simp [hns, hd]

theorem shortRest_of_pos_hitDice_zero (c : Character) (spent : Int) (rolls : Nat → Int)
    (h : 0 < spent) (hd : c.hitDice = 0) :
    shortRest c spent rolls =
      { c with hp := min c.maxHp
                 (c.hp + healTotal c rolls (min (max 1 (Int.fdiv c.level 2)) spent).toNat),
               hitDice := max 1 (Int.fdiv c.level 2) - min (max 1 (Int.fdiv c.level 2)) spent } := by
  unfold shortRest
  have hns : ¬ spent ≤ 0 := by omega
  simp [hns, hd]

/-! ### Claims C5, C8, C9 -/

/-- C5: damage clamps hp at 0; a concentrating character makes a check with
difficulty `max(10, floor(d/2))`; the roll is `d20 + con modifier +
proficiency` at the damage-button call site and `d20 + con modifier` at the
manual-check call site; concentration is cleared exactly when the roll is
below the difficulty; a non-concentrating character keeps no concentration;
and for damage 6 the difficulty is 10. -/
theorem C5_damage_concentration (c : Character) (d r : Int) :
    ((applyDamage c d r).hp = max 0 (c.hp - d)) ∧
    (∀ sp, c.concentratingOn = some sp →
      ((applyDamage c d r).concentratingOn = none ↔
        r + abilityMod c.con + calcProf c.level < max 10 (Int.fdiv d 2))) ∧
    (c.concentratingOn = none → (applyDamage c d r).concentratingOn = none) ∧
    (0 < d → ∀ sp, c.concentratingOn = some sp →
      ((concCheck c d r).concentratingOn = none ↔
        r + abilityMod c.con < max 10 (Int.fdiv d 2))) ∧
    concDC 6 = 10 := by
  refine ⟨applyDamage_hp c d r, ?_, applyDamage_conc_none c d r, ?_, by decide⟩
  · intro sp hsp
    exact applyDamage_conc_some c d r sp hsp
  · intro hd sp hsp
    exact concCheck_conc_some c d r sp hd hsp

/-- C5 witness at the spec's example: con 14, concentrating on Bless,
damage 6 (difficulty 10), forced d20 roll 7 giving a total of 9 at the
manual-check call site: below 10, so concentration is cleared. -/
theorem C5_witness :
    (0 : Int) < 6 ∧
    (⟨3, 20, 22, 14, 8, 3, [], some "Bless"⟩ : Character).concentratingOn = some "Bless" ∧
    ((concCheck ⟨3, 20, 22, 14, 8, 3, [], some "Bless"⟩ 6 7).concentratingOn = none ↔
      7 + abilityMod 14 < max 10 (Int.fdiv 6 2)) :=
  ⟨by decide, rfl,
    (C5_damage_concentration ⟨3, 20, 22, 14, 8, 3, [], some "Bless"⟩ 6 7).2.2.2.1
      (by decide) "Bless" rfl⟩

/-- C8 counterexample: a character with `hitDice = 0` (level 2, hp 1,
maxHp 10) takes a short rest spending 1 die with a forced roll of 5 and
regains hp (1 → 6), because `c.hitDice || Math.max(1, Math.floor(level/2))`
falls back to a non-zero dice pool when `hitDice` is 0. -/
theorem C8_counterexample :
    (⟨2, 1, 10, 10, 8, 0, [], none⟩ : Character).hitDice = 0 ∧
    (shortRest ⟨2, 1, 10, 10, 8, 0, [], none⟩ 1 (fun _ => 5)).hp = 6 := by
  constructor
  · rfl
  · decide

/-- C8 (amended): with a positive prompt input, a character with non-zero
`hitDice` spends `min(hitDice, input)` dice (never more than `hitDice`),
heals `max(0, roll + con modifier)` per die capped at `maxHp`, and has
`hitDice` decremented by exactly the dice spent; but when `hitDice` is 0
the handler falls back to a pool of `max(1, floor(level/2))` dice, so such
a character can still spend dice and regain hp. -/
theorem C8_shortRest (c : Character) (spent : Int) (rolls : Nat → Int)
    (hpos : 0 < spent) :
    (c.hitDice ≠ 0 →
      shortRest c spent rolls =
        { c with hp := min c.maxHp (c.hp + healTotal c rolls (min c.hitDice spent).toNat),
                 hitDice := c.hitDice - min c.hitDice spent }) ∧
    (0 < c.hitDice → min c.hitDice spent ≤ c.hitDice) ∧
    (c.hitDice = 0 →
      shortRest c spent rolls =
        { c with hp := min c.maxHp
                   (c.hp + healTotal c rolls (min (max 1 (Int.fdiv c.level 2)) spent).toNat),
                 hitDice := max 1 (Int.fdiv c.level 2) - min (max 1 (Int.fdiv c.level 2)) spent }) := by
  refine ⟨fun hd => shortRest_of_pos_hitDice_ne c spent rolls hpos hd,
    fun _ => min_le_left _ _,
    fun hd => shortRest_of_pos_hitDice_zero c spent rolls hpos hd⟩

/-- C8 witness: a character with 2 hit dice asked to spend 5 spends only 2,
healing `max(0, 3 + conMod 12) + max(0, 4 + conMod 12)` capped at maxHp,
and ends with 0 hit dice. -/
theorem C8_witness :
    (0 : Int) < 5 ∧
    (⟨2, 3, 14, 12, 8, 2, [], none⟩ : Character).hitDice ≠ 0 ∧
    shortRest ⟨2, 3, 14, 12, 8, 2, [], none⟩ 5 (fun i => 3 + i) =
      { (⟨2, 3, 14, 12, 8, 2, [], none⟩ : Character) with
          hp := min 14 (3 + healTotal ⟨2, 3, 14, 12, 8, 2, [], none⟩ (fun i => 3 + i) (min (2 : Int) 5).toNat),
          hitDice := 2 - min (2 : Int) 5 } :=
  ⟨by decide, by decide,
    (C8_shortRest ⟨2, 3, 14, 12, 8, 2, [], none⟩ 5 (fun i => 3 + i) (by decide)).1 (by decide)⟩

/-- C9: for a character with `0 ≤ hp ≤ maxHp`, damage with a non-negative
amount, healing with a non-negative amount, a short rest with any prompt
input and any dice outcomes, and a long rest all preserve
`0 ≤ hp ≤ maxHp`. -/
theorem C9_hp_invariant (c : Character) (h0 : 0 ≤ c.hp) (h1 : c.hp ≤ c.maxHp) :
    (∀ d r : Int, 0 ≤ d →
      0 ≤ (applyDamage c d r).hp ∧ (applyDamage c d r).hp ≤ (applyDamage c d r).maxHp) ∧
    (∀ a : Int, 0 ≤ a → 0 ≤ (heal c a).hp ∧ (heal c a).hp ≤ (heal c a).maxHp) ∧
    (∀ (spent : Int) (rolls : Nat → Int),
      0 ≤ (shortRest c spent rolls).hp ∧
      (shortRest c spent rolls).hp ≤ (shortRest c spent rolls).maxHp) ∧
    (0 ≤ (longRest c).hp ∧ (longRest c).hp ≤ (longRest c).maxHp) := by
  refine ⟨?_, ?_, ?_, ?_⟩
  · intro d r hd
    rw [applyDamage_hp, applyDamage_maxHp]
    omega
  · intro a ha
    simp only [heal]
    constructor <;> simp <;> try omega
  · intro spent rolls
    by_cases hs : spent ≤ 0
    · rw [shortRest_of_nonpos c spent rolls hs]
      omega
    · have hpos : 0 < spent := by omega
      by_cases hd : c.hitDice = 0
      · rw [shortRest_of_pos_hitDice_zero c spent rolls hpos hd]
        have := healTotal_nonneg c rolls (min (max 1 (Int.fdiv c.level 2)) spent).toNat
        constructor <;> simp <;> try omega
      · rw [shortRest_of_pos_hitDice_ne c spent rolls hpos hd]
        have := healTotal_nonneg c rolls (min c.hitDice spent).toNat
        constructor <;> simp <;> try omega
  · unfold longRest
    constructor <;> simp <;> try omega

/-- C9 witness: the invariant at a concrete character (hp 5 of 10) under
damage 3 with any forced roll. -/
theorem C9_witness :
    ((0 : Int) ≤ 5 ∧ (5 : Int) ≤ 10 ∧ (0 : Int) ≤ 3) ∧
    (0 ≤ (applyDamage ⟨1, 5, 10, 10, 8, 1, [], none⟩ 3 0).hp ∧
      (applyDamage ⟨1, 5, 10, 10, 8, 1, [], none⟩ 3 0).hp ≤
        (applyDamage ⟨1, 5, 10, 10, 8, 1, [], none⟩ 3 0).maxHp) :=
  ⟨⟨by decide, by decide, by decide⟩,
    (C9_hp_invariant ⟨1, 5, 10, 10, 8, 1, [], none⟩ (by decide) (by decide)).1 3 0 (by decide)⟩

/-! ### Router helper lemmas and claim C3 -/

theorem route_questUpdate (t : Int) (m : Msg) (s : ClientState)
    (h : m.heading = some "Quest Update") :
    route t m s = Except.ok
      ⟨LogEntry.questUpdate m.quest_name m.content :: s.log,
        ⟨t, "Quest", m.quest_name, "Quest Updated"⟩ :: s.timeline,
        List.take 2 (⟨m.quest_name, m.content⟩ :: s.questList)⟩ := by
  simp [route, h, addQuest]

/-- C3: a message whose heading is exactly "Quest Update" adds exactly one
quest-update log entry, pushes exactly one timeline entry tagged "Quest",
prepends a card to the quest list capped at 2 (after 3 such messages from
an empty list the quest list holds exactly 2 cards), and no further
processing of the message occurs (the handler returns the updated state at
this branch). -/
theorem C3_quest_update (t : Int) (m : Msg) (s : ClientState)
    (h : m.heading = some "Quest Update") :
    (route t m s = Except.ok
      ⟨LogEntry.questUpdate m.quest_name m.content :: s.log,
        ⟨t, "Quest", m.quest_name, "Quest Updated"⟩ :: s.timeline,
        List.take 2 (⟨m.quest_name, m.content⟩ :: s.questList)⟩) ∧
    (∀ (t2 t3 : Int) (m2 m3 : Msg) (s1 s2 s3 : ClientState),
      s.questList = [] →
      m2.heading = some "Quest Update" → m3.heading = some "Quest Update" →
      route t m s = Except.ok s1 → route t2 m2 s1 = Except.ok s2 →
      route t3 m3 s2 = Except.ok s3 → s3.questList.length = 2) := by
  refine ⟨route_questUpdate t m s h, ?_⟩
  intro t2 t3 m2 m3 s1 s2 s3 hnil h2 h3 hr1 hr2 hr3
  rw [route_questUpdate t m s h] at hr1
  injection hr1 with e1
  subst e1
  rw [route_questUpdate t2 m2 _ h2] at hr2
  injection hr2 with e2
  subst e2
  rw [route_questUpdate t3 m3 _ h3] at hr3
  injection hr3 with e3
  subst e3
  simp [hnil]

/-- C3 witness: three concrete "Quest Update" messages starting from the
empty client state leave exactly 2 quest cards. -/
theorem C3_witness :
    (⟨some "Quest Update", "X", "Y", none⟩ : Msg).heading = some "Quest Update" ∧
    route 0 ⟨some "Quest Update", "X", "Y", none⟩ ⟨[], [], []⟩ = Except.ok
      ⟨[LogEntry.questUpdate "X" "Y"], [⟨0, "Quest", "X", "Quest Updated"⟩],
        List.take 2 [⟨"X", "Y"⟩]⟩ ∧
    (⟨[LogEntry.questUpdate "X" "Y", LogEntry.questUpdate "X" "Y",
        LogEntry.questUpdate "X" "Y"],
      [⟨0, "Quest", "X", "Quest Updated"⟩, ⟨0, "Quest", "X", "Quest Updated"⟩,
        ⟨0, "Quest", "X", "Quest Updated"⟩],
      [⟨"X", "Y"⟩, ⟨"X", "Y"⟩]⟩ : ClientState).questList.length = 2 :=
  ⟨rfl,
    (C3_quest_update 0 ⟨some "Quest Update", "X", "Y", none⟩ ⟨[], [], []⟩ rfl).1,
    (C3_quest_update 0 ⟨some "Quest Update", "X", "Y", none⟩ ⟨[], [], []⟩ rfl).2
      0 0 ⟨some "Quest Update", "X", "Y", none⟩ ⟨some "Quest Update", "X", "Y", none⟩
      ⟨[LogEntry.questUpdate "X" "Y"], [⟨0, "Quest", "X", "Quest Updated"⟩], [⟨"X", "Y"⟩]⟩
      ⟨[LogEntry.questUpdate "X" "Y", LogEntry.questUpdate "X" "Y"],
        [⟨0, "Quest", "X", "Quest Updated"⟩, ⟨0, "Quest", "X", "Quest Updated"⟩],
        [⟨"X", "Y"⟩, ⟨"X", "Y"⟩]⟩
      ⟨[LogEntry.questUpdate "X" "Y", LogEntry.questUpdate "X" "Y",
          LogEntry.questUpdate "X" "Y"],
        [⟨0, "Quest", "X", "Quest Updated"⟩, ⟨0, "Quest", "X", "Quest Updated"⟩,
          ⟨0, "Quest", "X", "Quest Updated"⟩],
        [⟨"X", "Y"⟩, ⟨"X", "Y"⟩]⟩
      rfl rfl rfl rfl rfl rfl⟩

/-! ### Aggregator helper lemmas and claim C1 -/

theorem quest_eq_of_mem_questEntries (q : Quest) :
    ∀ e ∈ questEntries q, e.quest = q.title := by
  intro e he
  unfold questEntries at he
  rcases List.mem_append.mp he with h | h
  · rcases List.mem_map.mp h with ⟨ev, _, rfl⟩
    rfl
  · rcases List.mem_singleton.mp h with rfl
    rfl

theorem countP_allEventsOf_zero (Q : Quest) (p : TLEntry → Bool)
    (hzero : ∀ q' : Quest, q'.title ≠ Q.title → (questEntries q').countP p = 0) :
    ∀ rest : List Quest, rest.countP (fun q' => q'.title == Q.title) = 0 →
      (allEventsOf rest).countP p = 0
  | [], _ => rfl
  | r :: rs, h0 => by
    rw [List.countP_cons] at h0
    by_cases hb : (r.title == Q.title) = true
    · rw [if_pos hb] at h0
      omega
    · rw [if_neg hb] at h0
      have hr : r.title ≠ Q.title := by
        intro hEq
        exact hb (by simp [hEq])
      have hrs : rs.countP (fun q' => q'.title == Q.title) = 0 := by omega
      rw [show allEventsOf (r :: rs) = questEntries r ++ allEventsOf rs from rfl,
        List.countP_append, hzero r hr, countP_allEventsOf_zero Q p hzero rs hrs]

theorem countP_allEventsOf_of_unique (Q : Quest) (p : TLEntry → Bool)
    (hzero : ∀ q' : Quest, q'.title ≠ Q.title → (questEntries q').countP p = 0) :
    ∀ qs : List Quest, Q ∈ qs →
      qs.countP (fun q' => q'.title == Q.title) = 1 →
      (allEventsOf qs).countP p = (questEntries Q).countP p
  | [], hm, _ => absurd hm (List.not_mem_nil Q)
  | q :: rest, hm, hu => by
    rw [show allEventsOf (q :: rest) = questEntries q ++ allEventsOf rest from rfl,
      List.countP_append]
    rw [List.countP_cons] at hu
    by_cases hq : q.title = Q.title
    · rw [if_pos (show (q.title == Q.title) = true by simp [hq])] at hu
      have hrest0 : rest.countP (fun q' => q'.title == Q.title) = 0 := by omega
      have hQq : Q = q := by
        rcases List.mem_cons.mp hm with hEq | hIn
        · exact hEq
        · exfalso
          have hpos : 0 < rest.countP (fun q' => q'.title == Q.title) :=
            List.countP_pos_iff.mpr ⟨Q, hIn, by simp⟩
          omega
      subst hQq
      rw [countP_allEventsOf_zero Q p hzero rest hrest0]
      omega
    · rw [if_neg (show ¬ (q.title == Q.title) = true by simp [hq])] at hu
      have hIn : Q ∈ rest := by
        rcases List.mem_cons.mp hm with hEq | hIn
        · exact absurd (show q.title = Q.title by rw [hEq]) hq
        · exact hIn
      rw [hzero q hq, countP_allEventsOf_of_unique Q p hzero rest hIn (by omega)]
      omega

theorem countP_questEntries_title_self (Q : Quest) :
    (questEntries Q).countP (fun e => e.quest == Q.title) = Q.events.length + 1 := by
  have hall : ∀ e ∈ questEntries Q, (fun e : TLEntry => e.quest == Q.title) e = true := by
    intro e he
    simp [quest_eq_of_mem_questEntries Q e he]
  rw [List.countP_eq_length.mpr hall]
  unfold questEntries
  simp

theorem countP_questEntries_title_ne (Q q : Quest) (h : q.title ≠ Q.title) :
    (questEntries q).countP (fun e => e.quest == Q.title) = 0 := by
  rw [List.countP_eq_zero]
  intro e he
  simp [quest_eq_of_mem_questEntries q e he, h]

theorem countP_questEntries_created_self (Q : Quest) :
    (questEntries Q).countP (fun e => e == createdEntry Q) = 1 := by
  unfold questEntries
  rw [List.countP_append]
  have h0 : (Q.events.map (eventEntry Q)).countP (fun e => e == createdEntry Q) = 0 := by
    rw [List.countP_eq_zero]
    intro e he
    rcases List.mem_map.mp he with ⟨ev, _, rfl⟩
    simp [beq_iff_eq, eventEntry, createdEntry]
  rw [h0]
  simp

theorem countP_questEntries_created_ne (Q q : Quest) (h : q.title ≠ Q.title) :
    (questEntries q).countP (fun e => e == createdEntry Q) = 0 := by
  rw [List.countP_eq_zero]
  intro e he
  have hq := quest_eq_of_mem_questEntries q e he
  simp only [beq_iff_eq]
  intro hEq
  apply h
  rw [← hq, hEq]
  rfl

theorem mem_allEventsOf (Q : Quest) (e : TLEntry) (he : e ∈ questEntries Q) :
    ∀ qs : List Quest, Q ∈ qs → e ∈ allEventsOf qs
  | [], hm => absurd hm (List.not_mem_nil Q)
  | q :: rest, hm => by
    rcases List.mem_cons.mp hm with hEq | hIn
    · subst hEq
      exact List.mem_append_left _ he
    · exact List.mem_append_right _ (mem_allEventsOf Q e he rest hIn)

theorem filter_orderedInsert_of_ts_eq (tt : Int) (x : TLEntry) (hx : x.ts = tt) :
    ∀ l : List TLEntry,
      (List.orderedInsert tsDesc x l).filter (fun e => e.ts == tt) =
        x :: l.filter (fun e => e.ts == tt)
  | [] => by simp [hx]
  | b :: l => by
    by_cases hr : tsDesc x b
    · rw [List.orderedInsert, if_pos hr]
      simp [hx]
    · rw [List.orderedInsert, if_neg hr]
      have hb : (b.ts == tt) = false := by
        unfold tsDesc at hr
        simp only [beq_eq_false_iff_ne, ne_eq]
        omega
      rw [List.filter_cons_of_neg (by simp [hb]),
        filter_orderedInsert_of_ts_eq tt x hx l,
        List.filter_cons_of_neg (by simp [hb])]

theorem filter_orderedInsert_of_ts_ne (tt : Int) (x : TLEntry) (hx : x.ts ≠ tt) :
    ∀ l : List TLEntry,
      (List.orderedInsert tsDesc x l).filter (fun e => e.ts == tt) =
        l.filter (fun e => e.ts == tt)
  | [] => by simp [hx]
  | b :: l => by
    by_cases hr : tsDesc x b
    · rw [List.orderedInsert, if_pos hr]
      simp [hx]
    · rw [List.orderedInsert, if_neg hr]
      by_cases hb : b.ts = tt
      · rw [List.filter_cons_of_pos (by simp [hb]),
          filter_orderedInsert_of_ts_ne tt x hx l,
          List.filter_cons_of_pos (by simp [hb])]
      · rw [List.filter_cons_of_neg (by simp [hb]),
          filter_orderedInsert_of_ts_ne tt x hx l,
          List.filter_cons_of_neg (by simp [hb])]

theorem filter_insertionSort_ts (tt : Int) :
    ∀ l : List TLEntry,
      (List.insertionSort tsDesc l).filter (fun e => e.ts == tt) =
        l.filter (fun e => e.ts == tt)
  | [] => rfl
  | a :: l => by
    rw [List.insertionSort]
    by_cases ha : a.ts = tt
    · rw [filter_orderedInsert_of_ts_eq tt a ha, filter_insertionSort_ts tt l,
        List.filter_cons_of_pos (by simp [ha])]
    · rw [filter_orderedInsert_of_ts_ne tt a ha, filter_insertionSort_ts tt l,
        List.filter_cons_of_neg (by simp [ha])]

/-- C1: for a quest Q occurring in the quest list under a unique title, the
global timeline holds exactly `len(events)+1` entries attributable to Q:
exactly one synthetic quest-created entry (whose timestamp is Q's creation
time) plus every event of Q verbatim; the whole sequence is sorted by
timestamp descending; and entries sharing a timestamp keep their insertion
order (filtering the output by any fixed timestamp yields exactly the
corresponding sublist of the pre-sort push sequence). -/
theorem C1_global_timeline (qs : List Quest) (Q : Quest)
    (hm : Q ∈ qs)
    (hu : qs.countP (fun q' => q'.title == Q.title) = 1) :
    ((renderGlobalTimeline qs).countP (fun e => e.quest == Q.title) =
      Q.events.length + 1) ∧
    ((renderGlobalTimeline qs).countP (fun e => e == createdEntry Q) = 1) ∧
    ((createdEntry Q).ts = Q.created ∧ createdEntry Q ∈ renderGlobalTimeline qs) ∧
    (∀ ev ∈ Q.events, eventEntry Q ev ∈ renderGlobalTimeline qs) ∧
    List.Sorted tsDesc (renderGlobalTimeline qs) ∧
    (∀ tt : Int, (renderGlobalTimeline qs).filter (fun e => e.ts == tt) =
      (allEventsOf qs).filter (fun e => e.ts == tt)) := by
  have hperm := List.perm_insertionSort tsDesc (allEventsOf qs)
  refine ⟨?_, ?_, ⟨rfl, ?_⟩, ?_, ?_, ?_⟩
  · rw [renderGlobalTimeline, hperm.countP_eq,
      countP_allEventsOf_of_unique Q _ (countP_questEntries_title_ne Q) qs hm hu]
    exact countP_questEntries_title_self Q
  · rw [renderGlobalTimeline, hperm.countP_eq,
      countP_allEventsOf_of_unique Q _ (countP_questEntries_created_ne Q) qs hm hu]
    exact countP_questEntries_created_self Q
  · rw [renderGlobalTimeline]
    exact hperm.mem_iff.mpr
      (mem_allEventsOf Q _ (List.mem_append_right _ (List.mem_singleton_self _)) qs hm)
  · intro ev hev
    rw [renderGlobalTimeline]
    exact hperm.mem_iff.mpr
      (mem_allEventsOf Q _ (List.mem_append_left _ (List.mem_map_of_mem _ hev)) qs hm)
  · exact List.sorted_insertionSort tsDesc (allEventsOf qs)
  · intro tt
    exact filter_insertionSort_ts tt (allEventsOf qs)

/-- C1 witness: two quests with distinct titles, a timestamp tie across
quests, evaluated concretely. -/
theorem C1_witness :
    (⟨"a", "Alpha", "", "active", "", 10,
        [⟨"e1", 30, "milestone", "m", ""⟩, ⟨"e2", 10, "action", "x", ""⟩]⟩ : Quest) ∈
      ([⟨"a", "Alpha", "", "active", "", 10,
          [⟨"e1", 30, "milestone", "m", ""⟩, ⟨"e2", 10, "action", "x", ""⟩]⟩,
        ⟨"b", "Beta", "", "active", "", 20, [⟨"e3", 30, "dialogue", "d", "inn"⟩]⟩] :
        List Quest) ∧
    ([⟨"a", "Alpha", "", "active", "", 10,
        [⟨"e1", 30, "milestone", "m", ""⟩, ⟨"e2", 10, "action", "x", ""⟩]⟩,
      ⟨"b", "Beta", "", "active", "", 20, [⟨"e3", 30, "dialogue", "d", "inn"⟩]⟩] :
      List Quest).countP (fun q' => q'.title == "Alpha") = 1 ∧
    (renderGlobalTimeline
      [⟨"a", "Alpha", "", "active", "", 10,
        [⟨"e1", 30, "milestone", "m", ""⟩, ⟨"e2", 10, "action", "x", ""⟩]⟩,
       ⟨"b", "Beta", "", "active", "", 20, [⟨"e3", 30, "dialogue", "d", "inn"⟩]⟩]).countP
      (fun e => e.quest == "Alpha") = 2 + 1 :=
  ⟨by decide, by decide,
    (C1_global_timeline
      [⟨"a", "Alpha", "", "active", "", 10,
        [⟨"e1", 30, "milestone", "m", ""⟩, ⟨"e2", 10, "action", "x", ""⟩]⟩,
       ⟨"b", "Beta", "", "active", "", 20, [⟨"e3", 30, "dialogue", "d", "inn"⟩]⟩]
      ⟨"a", "Alpha", "", "active", "", 10,
        [⟨"e1", 30, "milestone", "m", ""⟩, ⟨"e2", 10, "action", "x", ""⟩]⟩
      (by decide) (by decide)).1⟩

end Technologia
